import Mathlib

/-!
Verification of `pyaff4/data_store.py` (rekall-innovations/py-aff4).

This file gives a shallow embedding of the metadata resolver
(`MemoryDataStore`), the reference-counted LRU object cache
(`AFF4ObjectCache`), the Turtle append protocol (`DumpToTurtle`), and the
indexed overlay backend (`HDTAssistedDataStore`), translated from the
Python source, and proves or refutes the frozen specification claims
about them.

Python dictionaries (`collections.OrderedDict` / `dict`) are embedded as
association lists with insertion-ordered keys; the dictionary operations
below mirror `d[k]`, `d.get(k)`, `d[k] = v` / `setdefault`, and
`d.pop(k)`.  Python exceptions are embedded with `Except PyErr`; a bare
`except:` handler is a `match` on the result.
-/

/-- Python exception kinds raised by the embedded code paths. -/
inductive PyErr where
  | typeError
  | attributeError
  | keyError
  | runtimeError
  | nonTermination
deriving DecidableEq, Repr

/-- Association-list embedding of a Python (ordered) dictionary with
String keys. -/
abbrev Dict (α : Type) := List (String × α)

/-- Python `d.get(k)` / successful `d[k]`: value at the first matching
key, if any. -/
def dfind? {α : Type} : Dict α → String → Option α
  | [], _ => none
  | (k, v) :: rest, key => if k = key then some v else dfind? rest key

/-- Python `d[k] = v`: update in place when the key is present, append
otherwise (dict insertion order). -/
def dset {α : Type} : Dict α → String → α → Dict α
  | [], key, v => [(key, v)]
  | (k, w) :: rest, key, v =>
      if k = key then (key, v) :: rest else (k, w) :: dset rest key v

/-- Python `d.pop(k, None)`'s effect on the dictionary: drop the first
matching key. -/
def derase {α : Type} : Dict α → String → Dict α
  | [], _ => []
  | (k, w) :: rest, key => if k = key then rest else (k, w) :: derase rest key

/-- The key sequence of a dictionary. -/
def dkeys {α : Type} (d : Dict α) : List String := d.map Prod.fst

theorem dfind?_dset_self {α : Type} (d : Dict α) (k : String) (v : α) :
    dfind? (dset d k v) k = some v := by
  induction d with
  | nil => simp [dset, dfind?]
  | cons hd rest ih =>
    obtain ⟨k1, w⟩ := hd
    by_cases h : k1 = k <;> simp [dset, dfind?, h, ih]

theorem dfind?_dset_ne {α : Type} (d : Dict α) (k k2 : String) (v : α)
    (h : k2 ≠ k) : dfind? (dset d k v) k2 = dfind? d k2 := by
  have hks : ¬ (k = k2) := fun e => h e.symm
  induction d with
  | nil => simp [dset, dfind?, hks]
  | cons hd rest ih =>
    obtain ⟨k1, w⟩ := hd
    by_cases h1 : k1 = k
    · subst h1
      simp [dset, dfind?, hks]
    · simp [dset, dfind?, h1]
      by_cases h2 : k1 = k2 <;> simp [h2, ih]

theorem dset_self {α : Type} (d : Dict α) (k : String) (v : α)
    (h : dfind? d k = some v) : dset d k v = d := by
  induction d with
  | nil => simp [dfind?] at h
  | cons hd rest ih =>
    obtain ⟨k1, w⟩ := hd
    by_cases h1 : k1 = k
    · subst h1
      simp [dfind?] at h
      simp [dset, h]
    · simp [dfind?, h1] at h
      simp [dset, h1, ih h]

theorem mem_dkeys_cons {α : Type} (p : String × α) (d : Dict α) (k : String) :
    k ∈ dkeys (p :: d) ↔ k = p.1 ∨ k ∈ dkeys d := by
  simp [dkeys]

theorem dfind?_eq_none_iff {α : Type} (d : Dict α) (k : String) :
    dfind? d k = none ↔ k ∉ dkeys d := by
  induction d with
  | nil => simp [dfind?, dkeys]
  | cons hd rest ih =>
    obtain ⟨k1, w⟩ := hd
    rw [mem_dkeys_cons]
    by_cases h1 : k1 = k
    · subst h1
      simp [dfind?]
    · have h2 : ¬ (k = k1) := fun e => h1 e.symm
      simp [dfind?, h1, h2]
      exact ih

theorem dkeys_dset {α : Type} (d : Dict α) (k : String) (v : α) :
    dkeys (dset d k v) =
      if (dfind? d k).isSome then dkeys d else dkeys d ++ [k] := by
  induction d with
  | nil => simp [dset, dfind?, dkeys]
  | cons hd rest ih =>
    obtain ⟨k1, w⟩ := hd
    by_cases h1 : k1 = k
    · subst h1
      simp [dset, dfind?, dkeys]
    · by_cases h2 : (dfind? rest k).isSome <;>
        simp [dset, dfind?, dkeys, h1, h2] at ih ⊢ <;> simp [ih]

theorem derase_sublist {α : Type} (d : Dict α) (k : String) :
    List.Sublist (derase d k) d := by
  induction d with
  | nil => simp [derase]
  | cons hd rest ih =>
    obtain ⟨k1, w⟩ := hd
    by_cases h1 : k1 = k
    · simp [derase, h1]
    · simp [derase, h1]
      exact ih

theorem dkeys_derase_sublist {α : Type} (d : Dict α) (k : String) :
    List.Sublist (dkeys (derase d k)) (dkeys d) :=
  List.Sublist.map Prod.fst (derase_sublist d k)

theorem not_mem_dkeys_derase {α : Type} (d : Dict α) (k : String)
    (h : (dkeys d).Nodup) : k ∉ dkeys (derase d k) := by
  induction d with
  | nil => simp [derase, dkeys]
  | cons hd rest ih =>
    obtain ⟨k1, w⟩ := hd
    simp only [dkeys, List.map_cons, List.nodup_cons] at h
    by_cases h1 : k1 = k
    · subst h1
      simp only [derase, if_pos rfl]
      exact fun hc => h.1 (by simpa [dkeys] using hc)
    · simp only [derase, if_neg h1]
      rw [mem_dkeys_cons]
      rintro (hc | hc)
      · exact h1 hc.symm
      · exact ih h.2 hc

theorem dfind?_derase_self {α : Type} (d : Dict α) (k : String)
    (h : (dkeys d).Nodup) : dfind? (derase d k) k = none := by
  rw [dfind?_eq_none_iff]
  exact not_mem_dkeys_derase d k h

/-! ## Data model of the resolver (`MemoryDataStore`, data_store.py lines 225-722)

`rdfvalue.py` and `lexicon.py` are not under src/; following the spec
("URN — opaque, canonically serialized identifier ...; equality and
map-keying always use the serialized form, never object identity"),
subjects and attributes are modelled directly by their canonical
serialized strings, and typed values (`rdfvalue.RDFValue`) by a
structure carrying the payload the code compares and reads (`.value`),
with value equality. -/

/-- Modelled from the spec: `rdfvalue.URN(x).SerializeToString()`
(rdfvalue.py is not under src/).  Subjects and attributes are
represented by their canonical serialized strings, so serialization is
the identity; per the spec, "equality and map-keying always use the
serialized form". -/
def urnSer (s : String) : String := s

/-- Modelled from the spec: an `rdfvalue.RDFValue` typed value
(rdfvalue.py is not under src/): "typed values support equality, a
canonical byte serialization, ...".  `value` is the payload read by
`isImageStream`; equality is value equality. -/
structure RDFValue where
  value : String
deriving DecidableEq, Repr

/-- An attribute slot of the store: the Python code stores either a
scalar `RDFValue` or a Python list of them (`Add` promotes a scalar to
a two-element list on the second distinct value). -/
inductive Slot where
  | one (v : RDFValue)
  | many (vs : List RDFValue)
deriving DecidableEq, Repr

/-- A graph store: subject URN string → (attribute URN string → slot). -/
abbrev Store := Dict (Dict Slot)

/-- Graph selector tokens from `lexicon.py` (not under src/), modelled
as an inductive type: `lexicon.any` (the merged selector),
`lexicon.transient_graph`, and any other (named/volume) URN.  The code
only ever compares the selector against these two distinguished tokens,
which are distinct URNs from the named ones. -/
inductive GraphSel where
  | anyG
  | transientG
  | named (u : String)
deriving DecidableEq, Repr

/-- The resolver's two fact stores (data_store.py lines 230-231).  The
`ObjectCache` member is modelled separately below (`AFF4ObjectCache`);
the claims about it address it directly. -/
structure MemoryDataStore where
  store : Store
  transient_store : Store
deriving DecidableEq, Repr

/-- Embeds `MemoryDataStore.DeleteSubject` (line 255-256):
`self.store.pop(rdfvalue.URN(subject), None)`.  The pop key is the URN
built from `subject`; per the spec's keying discipline it is looked up
by its serialized form, which is how `Add` keyed the store. -/
def MemoryDataStore.DeleteSubject (ds : MemoryDataStore) (subject : String) :
    MemoryDataStore :=
  { ds with store := derase ds.store (urnSer subject) }

/-- The store chosen by `Add`/`Set` (lines 573-576 and 596-599):
`if graph == transient_graph: store = self.transient_store else:
store = self.store`. -/
def graphStoreOf (ds : MemoryDataStore) (graph : Option GraphSel) : Store :=
  if graph = some GraphSel.transientG then ds.transient_store else ds.store

/-- The attribute slot for `(subject, attr)`, i.e.
`store.get(subject, {}).get(attr)`. -/
def slotOf (st : Store) (subject attr : String) : Option Slot :=
  dfind? ((dfind? st subject).getD []) attr

/-- Core of `MemoryDataStore.Add` (lines 578-589) acting on the chosen
store.  `store.setdefault(subject, OrderedDict())` inserts the subject
(with its current dict, or an empty one) before the attribute test; the
four branches follow the source exactly. -/
def storeAdd (st : Store) (subject attr : String) (v : RDFValue) : Store :=
  match dfind? ((dfind? st subject).getD []) attr with
  | none =>
      dset st subject (dset ((dfind? st subject).getD []) attr (Slot.one v))
  | some (Slot.one oldvalue) =>
      if v ≠ oldvalue then
        dset st subject
          (dset ((dfind? st subject).getD []) attr (Slot.many [oldvalue, v]))
      else
        dset st subject ((dfind? st subject).getD [])
  | some (Slot.many oldvalue) =>
      if v ∉ oldvalue then
        dset st subject
          (dset ((dfind? st subject).getD []) attr (Slot.many (oldvalue ++ [v])))
      else
        dset st subject ((dfind? st subject).getD [])

/-- Embeds `MemoryDataStore.Add` (lines 568-589).  The
`CHECK(isinstance(value, rdfvalue.RDFValue))` guard holds by typing. -/
def MemoryDataStore.Add (ds : MemoryDataStore) (graph : Option GraphSel)
    (subject attr : String) (v : RDFValue) : MemoryDataStore :=
  let subject := urnSer subject
  let attr := urnSer attr
  if graph = some GraphSel.transientG then
    { ds with transient_store := storeAdd ds.transient_store subject attr v }
  else
    { ds with store := storeAdd ds.store subject attr v }

/-- Embeds `store.setdefault(subject, {})[attribute] = value` (line 601). -/
def storeSetSlot (st : Store) (subject attr : String) (v : RDFValue) : Store :=
  dset st subject (dset ((dfind? st subject).getD []) attr (Slot.one v))

/-- Embeds `MemoryDataStore.Set` (lines 591-601): unconditional scalar
overwrite of the attribute slot in the chosen store.  Note the only
selector test is `graph == transient_graph`; every other selector
(including `lexicon.any` and `None`) falls through to the persistent
store. -/
def MemoryDataStore.Set (ds : MemoryDataStore) (graph : Option GraphSel)
    (subject attr : String) (v : RDFValue) : MemoryDataStore :=
  let subject := urnSer subject
  let attr := urnSer attr
  if graph = some GraphSel.transientG then
    { ds with transient_store := storeSetSlot ds.transient_store subject attr v }
  else
    { ds with store := storeSetSlot ds.store subject attr v }

/-- The values held by an optional slot, as a flat list. -/
def slotValues : Option Slot → List RDFValue
  | none => []
  | some (Slot.one v) => [v]
  | some (Slot.many vs) => vs

/-- Modelled from the spec: `utils.asList(resa, resb)` (utils.py is not
under src/).  Per the spec, `Get` with the merged selector "returns the
union of whatever is present in transient and persistent stores for
that slot". -/
def asList (a b : Option Slot) : List RDFValue := slotValues a ++ slotValues b

/-- The dynamically-typed result of `MemoryDataStore.Get`: Python
`None`, a scalar-or-list slot, or the list built by `utils.asList` for
the merged selector. -/
inductive PyRes where
  | noneV
  | slotV (s : Slot)
  | listV (vs : List RDFValue)
deriving DecidableEq, Repr

/-- Wraps a single-graph slot lookup the way Python returns it. -/
def optRes : Option Slot → PyRes
  | none => PyRes.noneV
  | some s => PyRes.slotV s

/-- Embeds `MemoryDataStore.Get` (lines 603-615). -/
def MemoryDataStore.Get (ds : MemoryDataStore) (graph : Option GraphSel)
    (subject attr : String) : PyRes :=
  let subject := urnSer subject
  let attr := urnSer attr
  if graph = some GraphSel.anyG ∨ graph = none then
    let resa := slotOf ds.transient_store subject attr
    let resb := slotOf ds.store subject attr
    PyRes.listV (asList resa resb)
  else if graph = some GraphSel.transientG then
    optRes (slotOf ds.transient_store subject attr)
  else
    optRes (slotOf ds.store subject attr)

/-- The empty resolver state. -/
def emptyDS : MemoryDataStore := { store := [], transient_store := [] }

/-! ## Claim C1: Add's multi-valued slot discipline -/

theorem slotOf_storeAdd_of_none (st : Store) (s a : String) (v : RDFValue)
    (h : slotOf st s a = none) :
    slotOf (storeAdd st s a v) s a = some (Slot.one v) := by
  unfold slotOf at h ⊢
  unfold storeAdd
  rw [h]
  simp [dfind?_dset_self]

theorem storeAdd_of_eq (st : Store) (s a : String) (v : RDFValue)
    (h : slotOf st s a = some (Slot.one v)) :
    storeAdd st s a v = st := by
  unfold slotOf at h
  unfold storeAdd
  rw [h]
  simp only [ne_eq, not_true_eq_false, if_neg, ite_false]
  have hs : dfind? st s = some ((dfind? st s).getD []) := by
    cases hd : dfind? st s with
    | none => rw [hd] at h; simp [dfind?] at h
    | some d => simp
  exact dset_self st s _ hs

theorem slotOf_storeAdd_of_ne (st : Store) (s a : String) (v w : RDFValue)
    (h : slotOf st s a = some (Slot.one w)) (hne : w ≠ v) :
    slotOf (storeAdd st s a v) s a = some (Slot.many [w, v]) := by
  unfold slotOf at h ⊢
  unfold storeAdd
  rw [h]
  have hvw : v ≠ w := fun e => hne e.symm
  simp only [hvw, ne_eq, not_false_eq_true, if_pos]
  simp [dfind?_dset_self]

theorem slotOf_storeAdd_of_many (st : Store) (s a : String) (v : RDFValue)
    (vs : List RDFValue) (h : slotOf st s a = some (Slot.many vs)) :
    slotOf (storeAdd st s a v) s a =
      some (Slot.many (if v ∈ vs then vs else vs ++ [v])) := by
  unfold slotOf at h ⊢
  unfold storeAdd
  rw [h]
  by_cases hv : v ∈ vs
  · simp only [hv, not_true_eq_false, if_neg, ite_false, if_true]
    have hs : dfind? st s = some ((dfind? st s).getD []) := by
      cases hd : dfind? st s with
      | none => rw [hd] at h; simp [dfind?] at h
      | some d => simp
    rw [dset_self st s _ hs]
    simp [hv, h]
  · simp only [hv, not_false_eq_true, if_pos, ite_true]
    simp [dfind?_dset_self, hv]

theorem storeAdd_of_mem (st : Store) (s a : String) (v : RDFValue)
    (vs : List RDFValue) (h : slotOf st s a = some (Slot.many vs))
    (hv : v ∈ vs) : storeAdd st s a v = st := by
  unfold slotOf at h
  unfold storeAdd
  rw [h]
  simp only [hv, not_true_eq_false, if_neg, ite_false]
  have hs : dfind? st s = some ((dfind? st s).getD []) := by
    cases hd : dfind? st s with
    | none => rw [hd] at h; simp [dfind?] at h
    | some d => simp
  exact dset_self st s _ hs

theorem graphStoreOf_Add (ds : MemoryDataStore) (g : Option GraphSel)
    (s a : String) (v : RDFValue) :
    graphStoreOf (ds.Add g s a v) g = storeAdd (graphStoreOf ds g) s a v := by
  unfold MemoryDataStore.Add graphStoreOf urnSer
  by_cases hg : g = some GraphSel.transientG <;> simp [hg]

/-- C1.  `MemoryDataStore.Add` follows the multi-valued slot discipline
of data_store.py lines 568-589, for every graph selector, subject,
attribute and typed value: an empty slot becomes the scalar value; a
scalar equal to the new value leaves the chosen store unchanged; a
different scalar becomes the two-element list `[old, new]`; a list gets
the value appended exactly when it is not already a member (and is left
unchanged otherwise); consequently adding the same (subject, attribute,
value) twice into an empty slot leaves the single scalar value, not a
duplicated list. -/
theorem Add_slot_discipline (ds : MemoryDataStore) (g : Option GraphSel)
    (s a : String) (v : RDFValue) :
    (slotOf (graphStoreOf ds g) s a = none →
      slotOf (graphStoreOf (ds.Add g s a v) g) s a = some (Slot.one v)) ∧
    (slotOf (graphStoreOf ds g) s a = some (Slot.one v) →
      graphStoreOf (ds.Add g s a v) g = graphStoreOf ds g) ∧
    (∀ w, slotOf (graphStoreOf ds g) s a = some (Slot.one w) → w ≠ v →
      slotOf (graphStoreOf (ds.Add g s a v) g) s a = some (Slot.many [w, v])) ∧
    (∀ vs, slotOf (graphStoreOf ds g) s a = some (Slot.many vs) →
      slotOf (graphStoreOf (ds.Add g s a v) g) s a =
        some (Slot.many (if v ∈ vs then vs else vs ++ [v]))) ∧
    (∀ vs, slotOf (graphStoreOf ds g) s a = some (Slot.many vs) → v ∈ vs →
      graphStoreOf (ds.Add g s a v) g = graphStoreOf ds g) ∧
    (slotOf (graphStoreOf ds g) s a = none →
      slotOf (graphStoreOf ((ds.Add g s a v).Add g s a v) g) s a =
        some (Slot.one v)) := by
  rw [graphStoreOf_Add]
  refine ⟨fun h => slotOf_storeAdd_of_none _ s a v h,
    fun h => storeAdd_of_eq _ s a v h,
    fun w h hne => slotOf_storeAdd_of_ne _ s a v w h hne,
    fun vs h => slotOf_storeAdd_of_many _ s a v vs h,
    fun vs h hv => storeAdd_of_mem _ s a v vs h hv,
    fun h => ?_⟩
  rw [graphStoreOf_Add, graphStoreOf_Add]
  have h1 := slotOf_storeAdd_of_none (graphStoreOf ds g) s a v h
  rw [storeAdd_of_eq (storeAdd (graphStoreOf ds g) s a v) s a v h1]
  exact h1

/-- Witness for C1 at a concrete input: an empty slot, the selector
`None`, and the value "100"; both the single-add and double-add clauses
are discharged. -/
theorem Add_slot_discipline_witness :
    slotOf (graphStoreOf (emptyDS.Add none "aff4://s" "aff4://t"
        (RDFValue.mk "100")) none) "aff4://s" "aff4://t" =
      some (Slot.one (RDFValue.mk "100")) ∧
    slotOf (graphStoreOf ((emptyDS.Add none "aff4://s" "aff4://t"
        (RDFValue.mk "100")).Add none "aff4://s" "aff4://t"
        (RDFValue.mk "100")) none) "aff4://s" "aff4://t" =
      some (Slot.one (RDFValue.mk "100")) :=
  ⟨(Add_slot_discipline emptyDS none "aff4://s" "aff4://t"
      (RDFValue.mk "100")).1 rfl,
   (Add_slot_discipline emptyDS none "aff4://s" "aff4://t"
      (RDFValue.mk "100")).2.2.2.2.2 rfl⟩

/-! ## The object cache (`AFF4ObjectCache`, data_store.py lines 59-222)

The intrusive doubly-linked ring (`AFF4ObjectCacheEntry`) together with
`lru_map` forms one idle collection: every code path that touches one
touches the other (`Put`, `Get`, `Return`, `Remove`, `_Trim`, `Flush`),
so the pair is embedded as a single list `lru` of keys.  The list is
kept in ring order from the ring tail (least recently used, list front)
to the ring head (most recently used, list back): `lru_list.append`
inserts at the ring head, i.e. appends at the back of the list, and
`_Trim` pops `lru_list.prev` (the ring tail), i.e. the list front.
`in_use` maps keys to `use_count`.  Cached objects are identified by
their key (`aff4_obj.urn.SerializeToString()`); each operation also
reports which objects had `Flush()` / `Close()` called on them.
A raised `CHECK` (a contract violation) is `Except.error ()`; every
`CHECK` in the source fires before any mutation of the two
collections. -/

structure AFF4ObjectCache where
  max_items : Nat
  in_use : Dict Nat
  lru : List String
deriving DecidableEq, Repr

/-- Python truthiness of `size or self.max_items` (line 97): `None` and
`0` are falsy, so both select the construction capacity. -/
def pyOrNat : Option Nat → Nat → Nat
  | some n, d => if n = 0 then d else n
  | none, d => d

/-- The `while len(self.lru_map) > max_items` eviction loop of `_Trim`
(lines 98-106): repeatedly unlink the ring tail (list front) and flush
it.  Returns the remaining idle list and the flushed keys in eviction
order. -/
def trimLoop (lru : List String) (maxI : Nat) : List String × List String :=
  if maxI < lru.length then
    match lru with
    | [] => ([], [])
    | k :: rest =>
        let r := trimLoop rest maxI
        (r.1, k :: r.2)
  else (lru, [])

/-- Embeds `AFF4ObjectCache._Trim(size)` (lines 96-106).  Returns the new
state and the keys flushed by eviction, in order. -/
def AFF4ObjectCache._Trim (s : AFF4ObjectCache) (size : Option Nat) :
    AFF4ObjectCache × List String :=
  let r := trimLoop s.lru (pyOrNat size s.max_items)
  ({ s with lru := r.1 }, r.2)

/-- Embeds `AFF4ObjectCache.Put(aff4_obj, in_use_state)` (lines 108-125):
double-registration is a contract violation; otherwise insert into
`in_use` with count 1, or append at the ring head and trim. -/
def AFF4ObjectCache.Put (s : AFF4ObjectCache) (key : String)
    (in_use_state : Bool) : Except Unit (AFF4ObjectCache × List String) :=
  if (dfind? s.in_use key).isSome then Except.error ()
  else if key ∈ s.lru then Except.error ()
  else if in_use_state then
    Except.ok ({ s with in_use := dset s.in_use key 1 }, [])
  else
    Except.ok (AFF4ObjectCache._Trim { s with lru := s.lru ++ [key] } none)

/-- Embeds `AFF4ObjectCache.Get(urn)` (lines 127-145): bump the use count when
in use; promote from idle to in-use with count 1; a miss returns `None`
(the Bool reports whether an object was returned). -/
def AFF4ObjectCache.Get (s : AFF4ObjectCache) (key : String) :
    AFF4ObjectCache × Bool :=
  match dfind? s.in_use key with
  | some c => ({ s with in_use := dset s.in_use key (c + 1) }, true)
  | none =>
      if key ∈ s.lru then
        ({ s with lru := s.lru.erase key, in_use := dset s.in_use key 1 }, true)
      else (s, false)

/-- Embeds `AFF4ObjectCache.Return(aff4_obj)` (lines 147-161): returning an
object not in use, or with use count 0, is a contract violation;
reaching count 0 demotes the entry to the ring head and trims. -/
def AFF4ObjectCache.Return (s : AFF4ObjectCache) (key : String) :
    Except Unit (AFF4ObjectCache × List String) :=
  match dfind? s.in_use key with
  | none => Except.error ()
  | some c =>
      if c = 0 then Except.error ()
      else if c - 1 = 0 then
        Except.ok (AFF4ObjectCache._Trim
          { s with lru := s.lru ++ [key], in_use := derase s.in_use key } none)
      else
        Except.ok ({ s with in_use := dset s.in_use key (c - 1) }, [])

/-- Embeds `AFF4ObjectCache.Remove(aff4_obj)` (lines 163-179): unlink from the
idle collection, else from `in_use`; the evicted object is flushed (the
source calls `Flush()` only — there is no `Close()` call on either
path).  An object in neither collection is a contract violation.
Returns (state, flushed keys, closed keys). -/
def AFF4ObjectCache.Remove (s : AFF4ObjectCache) (key : String) :
    Except Unit (AFF4ObjectCache × List String × List String) :=
  if key ∈ s.lru then
    Except.ok ({ s with lru := s.lru.erase key }, [key], [])
  else
    match dfind? s.in_use key with
    | some _ => Except.ok ({ s with in_use := derase s.in_use key }, [key], [])
    | none => Except.error ()

/-- Embeds `AFF4ObjectCache.Flush()` (lines 191-222): flushing with any object
still in use is a contract violation.  The dirty-sweep loop flushes
idle objects but does not change membership of either collection (those
flushes are not tracked here); afterwards every idle entry is closed,
unlinked and the idle map cleared.  Returns (state, closed keys). -/
def AFF4ObjectCache.Flush (s : AFF4ObjectCache) :
    Except Unit (AFF4ObjectCache × List String) :=
  if s.in_use.isEmpty then Except.ok ({ s with lru := [] }, s.lru)
  else Except.error ()

/-- One cache operation, for reasoning about operation sequences. -/
inductive CacheOp where
  | put (key : String) (in_use_state : Bool)
  | get (key : String)
  | ret (key : String)
  | remove (key : String)
  | trim (size : Option Nat)
  | flushAll
deriving DecidableEq, Repr

/-- The state after one operation; a raised `CHECK` aborts the
operation before any mutation, leaving the state unchanged. -/
def AFF4ObjectCache.step (s : AFF4ObjectCache) : CacheOp → AFF4ObjectCache
  | CacheOp.put k u =>
      match s.Put k u with
      | Except.ok r => r.1
      | Except.error _ => s
  | CacheOp.get k => (s.Get k).1
  | CacheOp.ret k =>
      match s.Return k with
      | Except.ok r => r.1
      | Except.error _ => s
  | CacheOp.remove k =>
      match s.Remove k with
      | Except.ok r => r.1
      | Except.error _ => s
  | CacheOp.trim sz => (s._Trim sz).1
  | CacheOp.flushAll =>
      match s.Flush with
      | Except.ok r => r.1
      | Except.error _ => s

/-- The state after a sequence of operations. -/
def AFF4ObjectCache.run (s : AFF4ObjectCache) (ops : List CacheOp) :
    AFF4ObjectCache :=
  ops.foldl AFF4ObjectCache.step s

/-- A freshly constructed cache (`__init__`, lines 89-94). -/
def initCache (max_items : Nat) : AFF4ObjectCache :=
  { max_items := max_items, in_use := [], lru := [] }

/-- The registration discipline of the cache: keys are unique within
each collection and no key is in both collections; a registered entry
(a member of either collection) is therefore in exactly one of them. -/
def cacheInv (s : AFF4ObjectCache) : Prop :=
  (dkeys s.in_use).Nodup ∧ s.lru.Nodup ∧
    ∀ k, k ∈ dkeys s.in_use → k ∉ s.lru

theorem trimLoop_eq (l : List String) (m : Nat) :
    trimLoop l m = (l.drop (l.length - m), l.take (l.length - m)) := by
  induction l with
  | nil => simp [trimLoop]
  | cons k rest ih =>
    rw [trimLoop]
    by_cases h : m < (k :: rest).length
    · simp only [List.length_cons] at h
      simp only [List.length_cons, h, if_pos]
      rw [ih]
      have hm : rest.length + 1 - m = (rest.length - m) + 1 := by omega
      rw [hm]
      simp
    · simp only [List.length_cons] at h
      simp only [List.length_cons, h, if_neg, not_false_eq_true]
      have hm : rest.length + 1 - m = 0 := by omega
      rw [hm]
      simp

theorem cacheInv_trim (s : AFF4ObjectCache) (sz : Option Nat)
    (h : cacheInv s) : cacheInv (s._Trim sz).1 := by
  obtain ⟨h1, h2, h3⟩ := h
  unfold AFF4ObjectCache._Trim
  rw [trimLoop_eq]
  refine ⟨h1, List.Sublist.nodup (List.drop_sublist _ _) h2, ?_⟩
  intro k hk hmem
  exact h3 k hk (List.Sublist.subset (List.drop_sublist _ _) hmem)

theorem cacheInv_put (s : AFF4ObjectCache) (k : String) (u : Bool)
    (h : cacheInv s) (s2 : AFF4ObjectCache) (fl : List String)
    (hok : s.Put k u = Except.ok (s2, fl)) : cacheInv s2 := by
  obtain ⟨h1, h2, h3⟩ := h
  unfold AFF4ObjectCache.Put at hok
  by_cases hi : (dfind? s.in_use k).isSome
  · simp [hi] at hok
  · by_cases hl : k ∈ s.lru
    · simp [hi, hl] at hok
    · have hknotin : k ∉ dkeys s.in_use := by
        rw [← dfind?_eq_none_iff]
        cases hd : dfind? s.in_use k with
        | none => rfl
        | some c => rw [hd] at hi; simp at hi
      cases u with
      | true =>
        simp only [hi, hl, Bool.false_eq_true, if_neg, not_false_eq_true,
          ite_false, ite_true, Except.ok.injEq, Prod.mk.injEq] at hok
        obtain ⟨hs2, _⟩ := hok
        rw [← hs2]
        refine ⟨?_, h2, ?_⟩
        · rw [dkeys_dset]
          simp only [hi, if_neg, Bool.false_eq_true, not_false_eq_true,
            ite_false]
          simp [List.nodup_append, h1, hknotin]
        · intro j hj
          rw [dkeys_dset] at hj
          simp only [hi, Bool.false_eq_true, if_false] at hj
          rcases List.mem_append.mp hj with hj | hj
          · exact h3 j hj
          · simp at hj
            subst hj
            exact hl
      | false =>
        simp only [hi, hl, Bool.false_eq_true, if_neg, not_false_eq_true,
          ite_false, Except.ok.injEq] at hok
        have hinv1 : cacheInv { s with lru := s.lru ++ [k] } := by
          refine ⟨h1, ?_, ?_⟩
          · simp [List.nodup_append, h2, hl]
          · intro j hj hmem
            rcases List.mem_append.mp hmem with hm | hm
            · exact h3 j hj hm
            · simp at hm
              subst hm
              exact hknotin hj
        have he := congrArg Prod.fst hok
        simp only at he
        rw [← he]
        exact cacheInv_trim { s with lru := s.lru ++ [k] } none hinv1

theorem cacheInv_get (s : AFF4ObjectCache) (k : String) (h : cacheInv s) :
    cacheInv (s.Get k).1 := by
  obtain ⟨h1, h2, h3⟩ := h
  unfold AFF4ObjectCache.Get
  cases hd : dfind? s.in_use k with
  | some c =>
    simp only []
    refine ⟨?_, h2, ?_⟩
    · rw [dkeys_dset, hd]
      simpa using h1
    · intro j hj
      rw [dkeys_dset, hd] at hj
      simp only [Option.isSome_some, if_pos] at hj
      exact h3 j hj
  | none =>
    by_cases hl : k ∈ s.lru
    · simp only [hl, if_pos]
      have hknotin : k ∉ dkeys s.in_use := (dfind?_eq_none_iff _ _).mp hd
      refine ⟨?_, List.Nodup.erase k h2, ?_⟩
      · rw [dkeys_dset, hd]
        simp [List.nodup_append, h1, hknotin]
      · intro j hj hmem
        rw [dkeys_dset, hd] at hj
        simp only [Option.isSome_none, Bool.false_eq_true, if_neg,
          not_false_eq_true, ite_false] at hj
        rcases List.mem_append.mp hj with hj | hj
        · exact h3 j hj (List.Sublist.subset (List.erase_sublist k s.lru) hmem)
        · simp at hj
          subst hj
          exact ((List.Nodup.mem_erase_iff h2).mp hmem).1 rfl
    · simp only [hl, Bool.false_eq_true, if_neg, not_false_eq_true, ite_false]
      exact ⟨h1, h2, h3⟩

theorem cacheInv_return (s : AFF4ObjectCache) (k : String) (h : cacheInv s)
    (s2 : AFF4ObjectCache) (fl : List String)
    (hok : s.Return k = Except.ok (s2, fl)) : cacheInv s2 := by
  obtain ⟨h1, h2, h3⟩ := h
  unfold AFF4ObjectCache.Return at hok
  cases hd : dfind? s.in_use k with
  | none => rw [hd] at hok; simp at hok
  | some c =>
    rw [hd] at hok
    by_cases hc : c = 0
    · simp [hc] at hok
    · by_cases hc1 : c - 1 = 0
      · simp only [hc, hc1, if_neg, not_false_eq_true, ite_false, if_pos,
          ite_true, Except.ok.injEq] at hok
        have hkin : k ∈ dkeys s.in_use := by
          by_contra hcon
          rw [← dfind?_eq_none_iff] at hcon
          rw [hcon] at hd
          cases hd
        have hinv1 : cacheInv
            { s with lru := s.lru ++ [k], in_use := derase s.in_use k } := by
          refine ⟨List.Sublist.nodup (dkeys_derase_sublist _ _) h1, ?_, ?_⟩
          · simp [List.nodup_append, h2, h3 k hkin]
          · intro j hj hmem
            have hjin : j ∈ dkeys s.in_use :=
              List.Sublist.subset (dkeys_derase_sublist _ _) hj
            rcases List.mem_append.mp hmem with hm | hm
            · exact h3 j hjin hm
            · simp at hm
              subst hm
              exact not_mem_dkeys_derase s.in_use j h1 hj
        have he := congrArg Prod.fst hok
        simp only at he
        rw [← he]
        exact cacheInv_trim _ none hinv1
      · simp only [hc, hc1, if_neg, not_false_eq_true, ite_false,
          Except.ok.injEq, Prod.mk.injEq] at hok
        obtain ⟨hs2, _⟩ := hok
        rw [← hs2]
        refine ⟨?_, h2, ?_⟩
        · rw [dkeys_dset, hd]
          simpa using h1
        · intro j hj
          rw [dkeys_dset, hd] at hj
          simp only [Option.isSome_some, if_pos] at hj
          exact h3 j hj

theorem cacheInv_remove (s : AFF4ObjectCache) (k : String) (h : cacheInv s)
    (s2 : AFF4ObjectCache) (fl cl : List String)
    (hok : s.Remove k = Except.ok (s2, fl, cl)) : cacheInv s2 := by
  obtain ⟨h1, h2, h3⟩ := h
  unfold AFF4ObjectCache.Remove at hok
  by_cases hl : k ∈ s.lru
  · simp only [hl, if_pos, ite_true, Except.ok.injEq, Prod.mk.injEq] at hok
    obtain ⟨hs2, _⟩ := hok
    rw [← hs2]
    refine ⟨h1, List.Nodup.erase k h2, ?_⟩
    intro j hj hmem
    exact h3 j hj (List.Sublist.subset (List.erase_sublist k s.lru) hmem)
  · cases hd : dfind? s.in_use k with
    | none => simp [hl, hd] at hok
    | some c =>
      simp only [hl, hd, Bool.false_eq_true, if_neg, not_false_eq_true,
        ite_false, Except.ok.injEq, Prod.mk.injEq] at hok
      obtain ⟨hs2, _⟩ := hok
      rw [← hs2]
      refine ⟨List.Sublist.nodup (dkeys_derase_sublist _ _) h1, h2, ?_⟩
      intro j hj
      exact h3 j (List.Sublist.subset (dkeys_derase_sublist _ _) hj)

theorem cacheInv_step (s : AFF4ObjectCache) (op : CacheOp) (h : cacheInv s) :
    cacheInv (s.step op) := by
  cases op with
  | put k u =>
    simp only [AFF4ObjectCache.step]
    cases hok : s.Put k u with
    | ok r => exact cacheInv_put s k u h r.1 r.2 (by rw [hok])
    | error e => exact h
  | get k =>
    simp only [AFF4ObjectCache.step]
    exact cacheInv_get s k h
  | ret k =>
    simp only [AFF4ObjectCache.step]
    cases hok : s.Return k with
    | ok r => exact cacheInv_return s k h r.1 r.2 (by rw [hok])
    | error e => exact h
  | remove k =>
    simp only [AFF4ObjectCache.step]
    cases hok : s.Remove k with
    | ok r => exact cacheInv_remove s k h r.1 r.2.1 r.2.2 (by rw [hok])
    | error e => exact h
  | trim sz =>
    simp only [AFF4ObjectCache.step]
    exact cacheInv_trim s sz h
  | flushAll =>
    simp only [AFF4ObjectCache.step]
    unfold AFF4ObjectCache.Flush
    obtain ⟨h1, h2, h3⟩ := h
    by_cases he : s.in_use.isEmpty
    · simp only [he, if_pos, ite_true]
      exact ⟨h1, List.nodup_nil, fun j hj hc => by cases hc⟩
    · simp only [he, Bool.false_eq_true, if_neg, not_false_eq_true, ite_false]
      exact ⟨h1, h2, h3⟩

theorem cacheInv_run (s : AFF4ObjectCache) (ops : List CacheOp)
    (h : cacheInv s) : cacheInv (s.run ops) := by
  induction ops generalizing s with
  | nil => exact h
  | cons op rest ih =>
    exact ih (s.step op) (cacheInv_step s op h)

/-- C2.  For every sequence of cache operations (Put, Get, Return,
Remove, Trim, Flush) starting from a freshly constructed cache, the
resulting state satisfies the registration discipline: each key occurs
at most once in `in_use` and at most once in the idle LRU collection,
and no key is in both — so every registered entry (one present in a
collection at all) is in exactly one of the two collections.  Since
every prefix of a sequence is itself a sequence, this holds at every
operation boundary. -/
theorem cache_exactly_one_collection (max_items : Nat) (ops : List CacheOp) :
    cacheInv ((initCache max_items).run ops) :=
  cacheInv_run (initCache max_items) ops
    ⟨List.nodup_nil, List.nodup_nil, fun j hj hc => by cases hc⟩

/-! ## Claim C5: `_Trim(0)` -/

/-- C5 counterexample.  A cache with capacity 10 holding one idle entry
and nothing in use: `_Trim(0)` evicts nothing and flushes nothing,
because `max_items = size or self.max_items` (line 97) treats the limit
0 as falsy and substitutes the construction capacity — contradicting
the claim that `Trim` with limit 0 evicts every idle entry.  The idle
ring is left non-empty. -/
theorem trim_zero_counterexample :
    AFF4ObjectCache._Trim
        { max_items := 10, in_use := [], lru := ["aff4://a"] } (some 0) =
      ({ max_items := 10, in_use := [], lru := ["aff4://a"] }, []) ∧
    (AFF4ObjectCache._Trim
        { max_items := 10, in_use := [], lru := ["aff4://a"] } (some 0)).1.lru
      ≠ [] := by
  constructor
  · rw [AFF4ObjectCache._Trim, trimLoop_eq]
    rfl
  · rw [AFF4ObjectCache._Trim, trimLoop_eq]
    simp [pyOrNat]

/-- C5 amended.  `_Trim` with limit 0 behaves exactly like `_Trim` with
no limit: the Python expression `size or self.max_items` treats 0 as
falsy, so the limit is the construction capacity `max_items`.  With no
entry pinned in `in_use` (nothing in `in_use` is ever touched by
`_Trim`), it evicts idle entries from the least-recently-used end until
at most `max_items` remain, flushing each evicted entry exactly once,
in least-recently-used-first order; the idle collection is emptied only
when `max_items = 0`. -/
theorem trim_zero_amended (s : AFF4ObjectCache) :
    s._Trim (some 0) = s._Trim none ∧
    (s._Trim (some 0)).1.lru = s.lru.drop (s.lru.length - s.max_items) ∧
    (s._Trim (some 0)).2 = s.lru.take (s.lru.length - s.max_items) ∧
    (s._Trim (some 0)).1.in_use = s.in_use ∧
    (s.lru.Nodup → (s._Trim (some 0)).2.Nodup) ∧
    (s.max_items = 0 →
      (s._Trim (some 0)).1.lru = [] ∧ (s._Trim (some 0)).2 = s.lru) := by
  have hpy : pyOrNat (some 0) s.max_items = pyOrNat none s.max_items := rfl
  refine ⟨by rw [AFF4ObjectCache._Trim, AFF4ObjectCache._Trim, hpy], ?_, ?_,
    ?_, ?_, ?_⟩
  · simp [AFF4ObjectCache._Trim, trimLoop_eq, pyOrNat]
  · simp [AFF4ObjectCache._Trim, trimLoop_eq, pyOrNat]
  · simp [AFF4ObjectCache._Trim, trimLoop_eq, pyOrNat]
  · intro hn
    simp only [AFF4ObjectCache._Trim, trimLoop_eq]
    exact List.Sublist.nodup (List.take_sublist _ _) hn
  · intro h0
    simp [AFF4ObjectCache._Trim, trimLoop_eq, pyOrNat, h0]

/-- Witness for the amended C5 at a concrete input: capacity 1 and
three idle entries; `_Trim(0)` keeps the most recent entry and flushes
the two older ones, oldest first, with no duplicate flushes. -/
theorem trim_zero_amended_witness :
    (AFF4ObjectCache._Trim
        { max_items := 1, in_use := [],
          lru := ["aff4://old", "aff4://mid", "aff4://new"] } (some 0)).2 =
      ["aff4://old", "aff4://mid"] ∧
    (AFF4ObjectCache._Trim
        { max_items := 1, in_use := [],
          lru := ["aff4://old", "aff4://mid", "aff4://new"] } (some 0)).2.Nodup := by
  have h := trim_zero_amended
    { max_items := 1, in_use := [],
      lru := ["aff4://old", "aff4://mid", "aff4://new"] }
  refine ⟨?_, h.2.2.2.2.1 (by decide)⟩
  rw [h.2.2.1]
  rfl

/-! ## Claim C6: `Remove` -/

/-- C6 counterexample.  A cache holding one idle entry: `Remove` of
that entry unlinks it and flushes it but performs no `Close()` call
(the close-event list is empty), contradicting the claim that `Remove`
"both flushes and closes the underlying object" — lines 163-176 call
only `entry.aff4_obj.Flush()` on both paths. -/
theorem remove_no_close_counterexample :
    AFF4ObjectCache.Remove
        { max_items := 10, in_use := [], lru := ["aff4://a"] } "aff4://a" =
      Except.ok ({ max_items := 10, in_use := [], lru := [] },
        ["aff4://a"], []) := by
  rfl

/-- C6 amended.  For every object currently held by the cache, `Remove`
unlinks its entry from the collection holding it (the idle collection
is tried first) and flushes the underlying object exactly once — but
does not close it; `Remove` of an object in neither collection fails
with a contract-violation error. -/
theorem remove_amended (s : AFF4ObjectCache) (key : String) :
    (key ∈ s.lru →
      s.Remove key = Except.ok ({ s with lru := s.lru.erase key },
        [key], [])) ∧
    (key ∉ s.lru → (dfind? s.in_use key).isSome →
      s.Remove key = Except.ok ({ s with in_use := derase s.in_use key },
        [key], [])) ∧
    (key ∉ s.lru → dfind? s.in_use key = none →
      s.Remove key = Except.error ()) := by
  refine ⟨fun hl => ?_, fun hl hi => ?_, fun hl hi => ?_⟩
  · simp [AFF4ObjectCache.Remove, hl]
  · cases hd : dfind? s.in_use key with
    | none => rw [hd] at hi; simp at hi
    | some c => simp [AFF4ObjectCache.Remove, hl, hd]
  · simp [AFF4ObjectCache.Remove, hl, hi]

/-- Witness for the amended C6 at concrete inputs: all three cases are
discharged — an idle entry, an in-use entry, and an absent key. -/
theorem remove_amended_witness :
    AFF4ObjectCache.Remove
        { max_items := 10, in_use := [], lru := ["aff4://i"] } "aff4://i" =
      Except.ok ({ max_items := 10, in_use := [], lru := [] },
        ["aff4://i"], []) ∧
    AFF4ObjectCache.Remove
        { max_items := 10, in_use := [("aff4://u", 1)], lru := [] } "aff4://u" =
      Except.ok ({ max_items := 10, in_use := [], lru := [] },
        ["aff4://u"], []) ∧
    AFF4ObjectCache.Remove
        { max_items := 10, in_use := [], lru := [] } "aff4://x" =
      Except.error () := by
  refine ⟨?_, ?_, ?_⟩
  · exact (remove_amended
      { max_items := 10, in_use := [], lru := ["aff4://i"] } "aff4://i").1
      (by decide)
  · exact (remove_amended
      { max_items := 10, in_use := [("aff4://u", 1)], lru := [] }
      "aff4://u").2.1 (by decide) (by decide)
  · exact (remove_amended
      { max_items := 10, in_use := [], lru := [] } "aff4://x").2.2
      (by decide) (by decide)

/-! ## Claim C7: `Set` with the merged selector -/

/-- C7 counterexample.  Calling `Set` with the merged selector
(`lexicon.any`) on an empty resolver silently stores the value into the
persistent graph: the only selector test in `Set` (line 596) is
`graph == transient_graph`, so every other selector falls through to
`self.store`.  A subsequent persistent-graph `Get` finds the value,
contradicting the claim that the write "does not silently store the
value into either graph". -/
theorem set_any_counterexample :
    (emptyDS.Set (some GraphSel.anyG) "aff4://s" "aff4://a"
        (RDFValue.mk "100")).store =
      [("aff4://s", [("aff4://a", Slot.one (RDFValue.mk "100"))])] ∧
    MemoryDataStore.Get
        (emptyDS.Set (some GraphSel.anyG) "aff4://s" "aff4://a"
          (RDFValue.mk "100"))
        (some (GraphSel.named "aff4://volume")) "aff4://s" "aff4://a" =
      PyRes.slotV (Slot.one (RDFValue.mk "100")) := by
  constructor <;> rfl

/-- C7 amended.  The merged (`lexicon.any`) selector is not rejected by
`Set` and is not a no-op: since it differs from the transient selector,
`Set` with the merged selector writes the scalar value into the
persistent store, exactly as a persistent-graph `Set` would, leaving
the transient store unchanged. -/
theorem set_any_amended (ds : MemoryDataStore) (s a : String) (v : RDFValue) :
    ds.Set (some GraphSel.anyG) s a v =
      { ds with store := storeSetSlot ds.store (urnSer s) (urnSer a) v } ∧
    ds.Set (some GraphSel.anyG) s a v =
      ds.Set (some (GraphSel.named "aff4://volume")) s a v ∧
    (ds.Set (some GraphSel.anyG) s a v).transient_store =
      ds.transient_store := by
  refine ⟨rfl, ?_, rfl⟩
  rw [MemoryDataStore.Set, MemoryDataStore.Set]
  simp

/-! ## Claim C8: `DeleteSubject` -/

/-- C8.  For every subject, `DeleteSubject` (lines 255-256) removes all
of that subject's facts from the persistent store — a subsequent
persistent-graph `Get` of any attribute of that subject returns `None`
— and leaves the transient store unchanged.  The pop key
`rdfvalue.URN(subject)` is keyed by its canonical serialized form (the
spec's keying discipline), the same form `Add` used as store key.  The
hypothesis that store keys are duplicate-free holds of every store a
Python dict can represent. -/
theorem DeleteSubject_removes_persistent (ds : MemoryDataStore)
    (subject attr vol : String) (hn : (dkeys ds.store).Nodup) :
    MemoryDataStore.Get (ds.DeleteSubject subject)
        (some (GraphSel.named vol)) subject attr = PyRes.noneV ∧
    (ds.DeleteSubject subject).transient_store = ds.transient_store := by
  refine ⟨?_, rfl⟩
  rw [MemoryDataStore.Get]
  simp only [urnSer, reduceCtorEq, or_self, Option.some.injEq, if_neg,
    not_false_eq_true, ite_false, or_false]
  rw [MemoryDataStore.DeleteSubject]
  simp only [urnSer, slotOf]
  rw [dfind?_derase_self ds.store subject hn]
  rfl

/-- Witness for C8 at a concrete input: a store holding one subject
with one attribute; after `DeleteSubject` the persistent `Get` finds
nothing and the transient store is untouched. -/
theorem DeleteSubject_removes_persistent_witness :
    MemoryDataStore.Get
        (MemoryDataStore.DeleteSubject
          { store := [("aff4://s", [("aff4://a", Slot.one (RDFValue.mk "1"))])],
            transient_store := [("aff4://t", [])] } "aff4://s")
        (some (GraphSel.named "aff4://volume")) "aff4://s" "aff4://a" =
      PyRes.noneV ∧
    (MemoryDataStore.DeleteSubject
        { store := [("aff4://s", [("aff4://a", Slot.one (RDFValue.mk "1"))])],
          transient_store := [("aff4://t", [])] } "aff4://s").transient_store =
      [("aff4://t", [])] :=
  DeleteSubject_removes_persistent
    { store := [("aff4://s", [("aff4://a", Slot.one (RDFValue.mk "1"))])],
      transient_store := [("aff4://t", [])] } "aff4://s" "aff4://a"
    "aff4://volume" (by decide)

/-! ## Claim C10: `isImageStream` (lines 541-562) -/

/-- Modelled from the spec: `lexicon.AFF4_TYPE` (lexicon.py is not
under src/) — the type attribute URI.  Its exact text is irrelevant to
the theorems; it is only used as a lookup key. -/
def AFF4_TYPE : String := "http://aff4.org/Schema#type"

/-- Modelled from the spec: `lexicon.AFF4_IMAGE_TYPE` (lexicon.py is
not under src/). -/
def AFF4_IMAGE_TYPE : String := "http://aff4.org/Schema#Image"

/-- Modelled from the spec: `lexicon.AFF4_LEGACY_IMAGE_TYPE`
(lexicon.py is not under src/); a distinct URI from the current one. -/
def AFF4_LEGACY_IMAGE_TYPE : String := "http://afflib.org/2009/aff4#Image"

/-- The `try:` body of `isImageStream`: `self.store[subject]` raises
`KeyError` for an absent subject, as does `po[lexicon.AFF4_TYPE]` for a
missing type slot (the `po == None` test on line 544 is never true for
a dict value and is dropped); the scalar branch compares `o.value`, the
list branch scans the entries. -/
def isImageStreamBody (st : Store) (subject : String) : Except PyErr Bool :=
  match dfind? st subject with
  | none => Except.error PyErr.keyError
  | some po =>
      match dfind? po AFF4_TYPE with
      | none => Except.error PyErr.keyError
      | some (Slot.many o) =>
          Except.ok (o.any (fun ent =>
            ent.value = AFF4_LEGACY_IMAGE_TYPE ∨ ent.value = AFF4_IMAGE_TYPE))
      | some (Slot.one o) =>
          Except.ok (decide
            (o.value = AFF4_LEGACY_IMAGE_TYPE ∨ o.value = AFF4_IMAGE_TYPE))

/-- Embeds `MemoryDataStore.isImageStream` (lines 541-562): the whole body is
wrapped in `try: ... except: return False`, so any raised exception
yields `False`. -/
def MemoryDataStore.isImageStream (ds : MemoryDataStore)
    (subject : String) : Bool :=
  match isImageStreamBody ds.store subject with
  | Except.ok b => b
  | Except.error _ => false

/-- C10.  `isImageStream` is total: for every subject and every store
content it returns a Boolean and never propagates an exception (the
bare `except:` maps every raised error to `False`); in particular a
subject absent from the persistent store yields `False`, and a present
subject whose type slot is missing yields `False`. -/
theorem isImageStream_total (ds : MemoryDataStore) (subject : String) :
    (ds.isImageStream subject = true ∨ ds.isImageStream subject = false) ∧
    (dfind? ds.store subject = none → ds.isImageStream subject = false) ∧
    (∀ po, dfind? ds.store subject = some po → dfind? po AFF4_TYPE = none →
      ds.isImageStream subject = false) := by
  refine ⟨?_, fun h => ?_, fun po h1 h2 => ?_⟩
  · cases hb : ds.isImageStream subject
    · exact Or.inr rfl
    · exact Or.inl rfl
  · rw [MemoryDataStore.isImageStream, isImageStreamBody, h]
  · simp [MemoryDataStore.isImageStream, isImageStreamBody, h1, h2]

/-- Witness for C10 at concrete inputs: an absent subject, and a
present subject with no type slot, both yield `False`. -/
theorem isImageStream_total_witness :
    MemoryDataStore.isImageStream emptyDS "aff4://missing" = false ∧
    MemoryDataStore.isImageStream
        { store := [("aff4://s", [("aff4://other", Slot.one (RDFValue.mk "x"))])],
          transient_store := [] } "aff4://s" = false :=
  ⟨(isImageStream_total emptyDS "aff4://missing").2.1 rfl,
   (isImageStream_total
      { store := [("aff4://s", [("aff4://other", Slot.one (RDFValue.mk "x"))])],
        transient_store := [] } "aff4://s").2.2
      [("aff4://other", Slot.one (RDFValue.mk "x"))] (by decide) (by decide)⟩

/-! ## Claim C3: `QuerySubject` (lines 620-632) -/

/-- A compiled regular expression, abstracted by its match test on
strings (`re` is a Python standard-library black box; only the typing
of its `match` argument matters here). -/
structure Regex where
  test : String → Bool

/-- A Python value flowing into `subject_regex.match(...)`: either a
string, or a `(key, value)` pair as produced by iterating `iteritems`. -/
inductive PyVal where
  | str (s : String)
  | pair (k : String) (d : Dict Slot)

/-- Python `re.Pattern.match(arg)`: matching succeeds or fails on a
string; any non-string argument raises
`TypeError: expected string or bytes-like object`. -/
def reMatch (regex : Regex) : PyVal → Except PyErr Bool
  | PyVal.str s => Except.ok (regex.test s)
  | PyVal.pair _ _ => Except.error PyErr.typeError

/-- The `storeitems` selection shared by the query operations (lines
623-628): `six.iteritems` of both stores chained, of the transient
store, or of the persistent store.  Each item is a (subject, data)
pair. -/
def queryItems (ds : MemoryDataStore) (graph : Option GraphSel) : Store :=
  if graph = some GraphSel.anyG ∨ graph = none then
    ds.store ++ ds.transient_store
  else if graph = some GraphSel.transientG then ds.transient_store
  else ds.store

/-- The `for subject in storeitems` loop of `QuerySubject` (lines
630-632).  The loop variable `subject` is bound to each (key, value)
PAIR (the source does not unpack it, unlike `QueryPredicate`), and the
pair is passed to `subject_regex.match`.  Yielded results are collected
in order; a raised exception aborts the generator at that element. -/
def querySubjectLoop (regex : Regex) : Store → Except PyErr (List String)
  | [] => Except.ok []
  | item :: rest => do
      let b ← reMatch regex (PyVal.pair item.1 item.2)
      let out ← querySubjectLoop regex rest
      if b then return item.1 :: out else return out

/-- Embeds `MemoryDataStore.QuerySubject(graph, subject_regex)` (lines
620-632), fully consumed. -/
def MemoryDataStore.QuerySubject (ds : MemoryDataStore)
    (graph : Option GraphSel) (regex : Regex) : Except PyErr (List String) :=
  querySubjectLoop regex (queryItems ds graph)

/-- Helper: the loop raises on its very first item. -/
theorem querySubjectLoop_cons (regex : Regex) (item : String × Dict Slot)
    (rest : Store) :
    querySubjectLoop regex (item :: rest) = Except.error PyErr.typeError := by
  rfl

/-- C3.  `QuerySubject` never yields a subject: on an empty selection
it returns no results, and as soon as the selected graph(s) hold any
subject at all it raises `TypeError`, because the loop iterates
`iteritems` (subject, data) pairs without unpacking and passes the pair
to `subject_regex.match`, which requires a string.  This contradicts
the claim that it yields the matching subjects and does not fail on a
non-empty store. -/
theorem QuerySubject_raises_on_nonempty (ds : MemoryDataStore)
    (graph : Option GraphSel) (regex : Regex) :
    (queryItems ds graph = [] →
      ds.QuerySubject graph regex = Except.ok []) ∧
    (queryItems ds graph ≠ [] →
      ds.QuerySubject graph regex = Except.error PyErr.typeError) := by
  refine ⟨fun h => ?_, fun h => ?_⟩
  · rw [MemoryDataStore.QuerySubject, h]
    rfl
  · rw [MemoryDataStore.QuerySubject]
    cases hq : queryItems ds graph with
    | nil => exact absurd hq h
    | cons item rest => exact querySubjectLoop_cons regex item rest

/-- Witness for C3 at a concrete input: a persistent store holding one
subject, queried with a match-everything regular expression, raises
`TypeError`; the same query on an empty resolver returns no results. -/
theorem QuerySubject_raises_on_nonempty_witness :
    MemoryDataStore.QuerySubject
        { store := [("aff4://s", [("aff4://a", Slot.one (RDFValue.mk "1"))])],
          transient_store := [] }
        none (Regex.mk (fun _ => true)) = Except.error PyErr.typeError ∧
    MemoryDataStore.QuerySubject emptyDS none (Regex.mk (fun _ => true)) =
      Except.ok [] :=
  ⟨(QuerySubject_raises_on_nonempty
      { store := [("aff4://s", [("aff4://a", Slot.one (RDFValue.mk "1"))])],
        transient_store := [] } none (Regex.mk (fun _ => true))).2
      (by simp [queryItems]),
   (QuerySubject_raises_on_nonempty emptyDS none
      (Regex.mk (fun _ => true))).1 (by simp [queryItems, emptyDS])⟩

/-! ## Claim C9: `HDTAssistedDataStore` with the index absent (lines 726-860) -/

/-- The external compressed index handle (the third-party `hdt`
library's `HDTDocument`, a black box per the spec); modelled by the
triples its `search_triples` would materialize.  `self.hdt` is `None`
until `loadMetadata` builds the index. -/
structure HdtDoc where
  triples : List (String × String × String)

/-- Embeds `HDTAssistedDataStore` (lines 726-729): the base resolver plus the
optional index handle, initialized to `None`. -/
structure HDTAssistedDataStore where
  base : MemoryDataStore
  hdt : Option HdtDoc

/-- An element yielded by `HDTAssistedDataStore.QuerySubject`: line 772
yields the *generator object* returned by the `super()` call itself
(it does not iterate it), later elements are URN values. -/
inductive QSItem where
  | generatorObj
  | urnV (s : String)

/-- The `seen_subject` scan over the index triples (lines 778-782):
`seen_subject` is initialized to a Python *list* `[]`, and on the first
regex match the code calls `seen_subject.add(s)` — lists have no `add`
method, so this raises `AttributeError`. -/
def hdtSeenLoop (regex : Regex) :
    List (String × String × String) → Except PyErr (List QSItem)
  | [] => Except.ok []
  | (s, _, _) :: rest =>
      if regex.test s then Except.error PyErr.attributeError
      else hdtSeenLoop regex rest

/-- Embeds `HDTAssistedDataStore.QuerySubject(graph, subject_regex)` (lines
770-787), fully consumed.  For the transient selector line 772 first
yields the generator object of the `super()` call; then line 775
evaluates `self.hdt.search_triples("", "?", "?")` — when the index has
not been built, `self.hdt` is `None` and the attribute access raises
`AttributeError`. -/
def HDTAssistedDataStore.QuerySubject (ds : HDTAssistedDataStore)
    (graph : Option GraphSel) (regex : Regex) : Except PyErr (List QSItem) := do
  let pre : List QSItem :=
    if graph = some GraphSel.transientG then [QSItem.generatorObj] else []
  let doc ← match ds.hdt with
    | none => (Except.error PyErr.attributeError : Except PyErr HdtDoc)
    | some d => Except.ok d
  let fromIndex ← hdtSeenLoop regex doc.triples
  let fromBase ← MemoryDataStore.QuerySubject ds.base graph regex
  return pre ++ fromIndex ++ (fromBase.map QSItem.urnV)

/-- Embeds `HDTAssistedDataStore.Get` (lines 805-814), restricted to the
absent-index case the claim addresses: `if self.hdt == None` delegates
to the base resolver's `Get`. -/
def HDTAssistedDataStore.Get (ds : HDTAssistedDataStore)
    (graph : Option GraphSel) (subject attr : String) :
    Option PyRes :=
  match ds.hdt with
  | none => some (MemoryDataStore.Get ds.base graph subject attr)
  | some _ => none

/-- C9.  With the external index absent (`hdt = None`), `Get` does fall
through to the base resolver, but `QuerySubject` never returns the base
resolver's results: consuming it raises `AttributeError` for every
store, selector and regular expression, because line 775 calls
`search_triples` on the `None` handle unconditionally.  This
contradicts the claim that every query operation behaves exactly as the
base resolver without raising. -/
theorem hdt_querySubject_raises_when_index_absent
    (base : MemoryDataStore) (graph : Option GraphSel) (regex : Regex) :
    HDTAssistedDataStore.QuerySubject
        { base := base, hdt := none } graph regex =
      Except.error PyErr.attributeError ∧
    HDTAssistedDataStore.Get { base := base, hdt := none } graph
        "aff4://s" "aff4://a" =
      some (MemoryDataStore.Get base graph "aff4://s" "aff4://a") := by
  constructor
  · rfl
  · rfl

/-! ## Claim C4: `DumpToTurtle`, second-or-later append (lines 359-405) -/

/-- A zip container, abstracted to what `DumpToTurtle` consumes:
membership and member contents, keyed by member name
(`escaping.urn_from_member_name` is a bijection between names and ARNs
within one container; members are keyed here by name). -/
structure ZipContainer where
  urn : String
  members : Dict String

/-- Embeds `zipcontainer.ContainsMember(...)`. -/
def ZipContainer.ContainsMember (zc : ZipContainer) (name : String) : Bool :=
  (dfind? zc.members name).isSome

/-- Embeds `zipcontainer.OpenZipSegment(name)` followed by
`streams.ReadAll`: the member's content, or an error when absent. -/
def ZipContainer.OpenZipSegment (zc : ZipContainer) (name : String) :
    Except PyErr String :=
  match dfind? zc.members name with
  | some c => Except.ok c
  | none => Except.error PyErr.keyError

/-- Embeds `zipcontainer.CreateZipSegment(name)` + `write(content)`. -/
def ZipContainer.CreateZipSegment (zc : ZipContainer)
    (name content : String) : ZipContainer :=
  { zc with members := dset zc.members name content }

/-- Python `"%08d" % n`: decimal, left-padded with zeros to width 8. -/
def pad8 (n : Nat) : String :=
  let s := toString n
  String.mk (List.replicate (8 - s.length) '0') ++ s

/-- The member name `"information.turtle/%08d" % n`. -/
def chunkName (n : Nat) : String := "information.turtle/" ++ pad8 n

/-- The chunk-index probe loop of the second-or-later append branch
(lines 361-366): `turtleContainerIndex = 2` and then
`while True: if not ContainsMember(... % turtleContainerIndex): break`.
The loop body contains no other statement — in particular the index is
never incremented — so when the member at the starting index exists the
condition is re-tested unchanged forever.  Fuel makes the
non-termination observable: `none` means the loop never exited. -/
def probeLoop (contains2 : Nat → Bool) (idx : Nat) : Nat → Option Nat
  | 0 => none
  | fuel + 1 =>
      if contains2 idx then probeLoop contains2 idx fuel else some idx

/-- Modelled from the spec: `turtle.toDirectivesAndTripes` (turtle.py
is not under src/) "split it into a directives block (namespace prefix
declarations) and a triples block".  Directive lines are the lines
opening with `@`. -/
def toDirectivesAndTriples (txt : String) : String × String :=
  let ls := txt.splitOn "\n"
  (String.intercalate "\n" (ls.filter (fun l => l.startsWith "@")),
   String.intercalate "\n" (ls.filter (fun l => ¬ l.startsWith "@")))

/-- Modelled from the spec: `turtle.difference` (turtle.py is not under
src/) — "a line-set difference — lines present in the new directive
text but absent from the stored one". -/
def turtleDifference (old txt : String) : String :=
  String.intercalate "\r\n"
    ((txt.splitOn "\n").filter (fun l => ¬ (old.splitOn "\n").contains l))

/-- The rebuild loop (lines 392-403): concatenate chunks `0, 1, ...` in
ascending order while they exist (this loop, unlike the probe loop,
does increment its index). -/
def rebuildChunks (zc : ZipContainer) (idx : Nat) :
    Nat → String → Except PyErr String
  | 0, _ => Except.error PyErr.nonTermination
  | fuel + 1, acc =>
      match dfind? zc.members (chunkName idx) with
      | some txt => rebuildChunks zc (idx + 1) fuel (acc ++ txt ++ "\r\n")
      | none => Except.ok acc

/-- The second-or-later append branch of `DumpToTurtle` (lines
359-405), taken when both `information.turtle` and
`information.turtle/directives` already exist.  After the probe loop
and the directives read, line 371 evaluates
`turtle.toDirectivesAndTripes(utils.SmartUnicodeself._DumpToTurtle(zipcontainer.urn))`:
`utils.SmartUnicodeself` is an attribute access for a name that does
not exist in the `utils` module (a missing parenthesis in the source),
so it raises `AttributeError` before any segment is written.  The
statements after it are embedded faithfully but are unreachable. -/
def MemoryDataStore.DumpToTurtleAppendAgain (ds : MemoryDataStore)
    (zc : ZipContainer) (fuel : Nat) : Except PyErr ZipContainer := do
  let turtleContainerIndex ←
    match probeLoop (fun n => zc.ContainsMember (chunkName n)) 2 fuel with
    | none => (Except.error PyErr.nonTermination : Except PyErr Nat)
    | some i => Except.ok i
  let directives_txt ← zc.OpenZipSegment "information.turtle/directives"
  let currentTurtle ←
    (Except.error PyErr.attributeError : Except PyErr String)
  let pair := toDirectivesAndTriples currentTurtle
  let directives_difference := turtleDifference directives_txt pair.1
  let directives_txt :=
    if directives_difference ≠ "" then
      directives_txt ++ "\r\n" ++ directives_difference
    else directives_txt
  let zc :=
    if directives_difference ≠ "" then
      zc.CreateZipSegment "information.turtle/directives" directives_txt
    else zc
  let zc := zc.CreateZipSegment (chunkName turtleContainerIndex) pair.2
  let body ← rebuildChunks zc 0 fuel ""
  return zc.CreateZipSegment "information.turtle"
    (directives_txt ++ "\r\n\r\n" ++ body)

/-- C4.  The second-or-later append branch never completes: for every
resolver state, every container state (in particular every one in which
the split exists), and every fuel bound, it raises — the probe loop
either never terminates (its body does not advance the index, so any
existing chunk at index 2 is re-tested forever) or exits at index 2,
after which line 371's `utils.SmartUnicodeself` raises `AttributeError`
before the new chunk is written or the Turtle file rebuilt.  No new
triples are ever appended, contradicting the claim. -/
theorem dumpToTurtle_append_again_never_succeeds (ds : MemoryDataStore)
    (zc : ZipContainer) (fuel : Nat) :
    ds.DumpToTurtleAppendAgain zc fuel = Except.error PyErr.nonTermination ∨
    ds.DumpToTurtleAppendAgain zc fuel = Except.error PyErr.keyError ∨
    ds.DumpToTurtleAppendAgain zc fuel = Except.error PyErr.attributeError := by
  rw [MemoryDataStore.DumpToTurtleAppendAgain]
  cases hp : probeLoop (fun n => zc.ContainsMember (chunkName n)) 2 fuel with
  | none =>
    left
    simp [Bind.bind, Except.bind]
  | some i =>
    cases ho : zc.OpenZipSegment "information.turtle/directives" with
    | error e =>
      have he : e = PyErr.keyError := by
        rw [ZipContainer.OpenZipSegment] at ho
        cases hm : dfind? zc.members "information.turtle/directives" with
        | some c => rw [hm] at ho; cases ho
        | none => rw [hm] at ho; cases ho; rfl
      subst he
      right; left
      simp [Bind.bind, Except.bind, ho]
    | ok d =>
      right; right
      simp [Bind.bind, Except.bind, ho]
